import Mathlib

/-!
# Verification of the Tale command-interpretation and message-distribution core

A shallow embedding, in Lean 4, of the parts of the Tale MUD framework that
the specification talks about:

* the per-actor output pipeline (Output Buffer: `tell` / raw drain / wrapped
  drain),
* the wiretap registry (install / clear / delivery fan-out),
* the Soul parser (tokenizer, target resolver, verb lookup, external verbs),
* message-template field substitution (plain vs. capitalized title),
* the command decorators `cmd` / `wizcmd` (translated from
  `tale/cmds/decorators.py`),
* the virtual file system path validation (translated from `tale/vfs.py`).

The repository snapshot contains `tale/cmds/decorators.py`, `tale/vfs.py`,
`mudlib/globals.py` and the test-suite `tests/test_player.py`.  The player /
soul / base modules themselves (Output Buffer, wiretaps, parser) are not part
of the snapshot, so those parts are modelled from the specification text, as
noted in each doc comment.
-/

deriving instance DecidableEq for Except

namespace Tale

/-! ## String helpers

All string processing is done over `List Char` with structural recursion so
that every definition reduces by `rfl` / `decide` in the kernel. -/

/-- Split a character list into maximal runs of non-whitespace characters.
`cur` is the (reversed) run being accumulated. -/
def splitWs : List Char → List Char → List (List Char)
  | [], cur => if cur = [] then [] else [cur.reverse]
  | c :: rest, cur =>
    if c.isWhitespace then
      if cur = [] then splitWs rest [] else cur.reverse :: splitWs rest []
    else splitWs rest (c :: cur)

/-- Modelled from the spec (§4.1 Tokenizer): "splits on whitespace".
Also used for word-wrapping, where formatted text is wrapped at word
boundaries. -/
def tokenize (s : String) : List String :=
  (splitWs s.data []).map (fun cs => String.mk cs)

/-- Lower-case a string (used for case-insensitive matching). -/
def lowerStr (s : String) : String :=
  String.mk (s.data.map Char.toLower)

/-- Capitalize the first character of a string (used for the `{Title}`
substitution field). -/
def capitalizeStr (s : String) : String :=
  match s.data with
  | [] => ""
  | c :: cs => String.mk (c.toUpper :: cs)

/-- Join a list of strings with a separator. -/
def joinWith (sep : String) : List String → String
  | [] => ""
  | [s] => s
  | s :: rest => s ++ sep ++ joinWith sep rest

/-- Remove trailing whitespace. -/
def trimR (s : String) : String :=
  String.mk (((s.data.reverse).dropWhile Char.isWhitespace).reverse)

/-- `isLeadingOf p l` : `p` occurs at the very front of `l`
(a prefix test on character lists). -/
def isLeadingOf : List Char → List Char → Bool
  | [], _ => true
  | _ :: _, [] => false
  | a :: as, b :: bs => a = b && isLeadingOf as bs

/-- `n` concatenated copies of `s`. -/
def repeatStr : Nat → String → String
  | 0, _ => ""
  | n + 1, s => s ++ repeatStr n s

/-! ## Output Buffer

Modelled from the spec (§4.4 Output Buffer): a per-actor accumulator of
pending output fragments; `tale/player.py` is not part of the repository
snapshot, only its tests are. -/

/-- A pending output fragment: a piece of text (tagged with whether
word-wrap formatting applies to it), or a paragraph-break marker. -/
inductive OutFragment where
  | text (s : String) (fmt : Bool)
  | para
deriving DecidableEq, Repr

/-- Modelled from the spec: the Output Buffer "Holds an ordered sequence of
pending fragments, each fragment tagged with metadata: raw text, whether it
is a paragraph break, whether line-wrap formatting applies to it." -/
structure OutputBuffer where
  frags : List OutFragment
deriving DecidableEq, Repr

/-- The fresh (empty) Output Buffer. -/
def OutputBuffer.empty : OutputBuffer := ⟨[]⟩

/-- Does the fragment list end in a paragraph marker? -/
def endsWithPara (l : List OutFragment) : Bool :=
  l.getLast? = some OutFragment.para

/-- Modelled from the spec: "an append of an empty string is a
paragraph-break marker and is idempotent — multiple consecutive empty appends
collapse to one marker, and a marker adjacent to the start/end of an
otherwise-empty buffer contributes nothing until real content exists." -/
def appendPara (b : OutputBuffer) : OutputBuffer :=
  if b.frags = [] then b
  else if endsWithPara b.frags then b
  else ⟨b.frags ++ [OutFragment.para]⟩

/-- Modelled from the spec (§4.4): `append(fragment, format=true,
end=false)`.  An empty string or an explicit literal newline is a
paragraph-break marker; `end=true` forces a paragraph break immediately
after the fragment. -/
def tell (s : String) (fmt endp : Bool) (b : OutputBuffer) : OutputBuffer :=
  if s = "" ∨ s = "\n" then appendPara b
  else
    let b2 : OutputBuffer := ⟨b.frags ++ [OutFragment.text s fmt]⟩
    if endp then appendPara b2 else b2

/-- One queued `tell` call: text, format flag, end flag. -/
structure TellOp where
  s : String
  fmt : Bool
  endp : Bool

/-- Apply a sequence of `tell` calls to a buffer. -/
def applyTells (ops : List TellOp) (b : OutputBuffer) : OutputBuffer :=
  ops.foldl (fun acc op => tell op.s op.fmt op.endp acc) b

/-- Raw-mode rendering: consecutive text fragments before a paragraph break
are joined with a single space, paragraph markers become `"\n"` entries.
The `Option String` accumulator holds the paragraph joined so far. -/
def renderRawAux : List OutFragment → Option String → List String
  | [], none => []
  | [], some s => [s]
  | OutFragment.para :: rest, none => "\n" :: renderRawAux rest none
  | OutFragment.para :: rest, some s => s :: "\n" :: renderRawAux rest none
  | OutFragment.text t _ :: rest, none => renderRawAux rest (some t)
  | OutFragment.text t _ :: rest, some s => renderRawAux rest (some (s ++ " " ++ t))

/-- Modelled from the spec: `drain_raw() -> sequence of line/paragraph
fragments`; "a buffer drained by a read operation is empty immediately
after". Returns the rendered lines together with the emptied buffer. -/
def drainRaw (b : OutputBuffer) : List String × OutputBuffer :=
  (renderRawAux b.frags none, OutputBuffer.empty)

/-- Split the fragment list into paragraphs at the paragraph markers
(`cur` accumulates the current paragraph in reverse). -/
def splitParas : List OutFragment → List OutFragment → List (List OutFragment)
  | [], cur => [cur.reverse]
  | OutFragment.para :: rest, cur => cur.reverse :: splitParas rest []
  | f :: rest, cur => splitParas rest (f :: cur)

/-- Greedy word-wrap of a word list at the given width: words accumulate on
the current line while they fit, and a word is never split. -/
def wrapAux (width : Nat) : List String → String → List String
  | [], cur => if cur = "" then [] else [cur]
  | w :: ws, cur =>
    if cur = "" then wrapAux width ws w
    else if cur.length + 1 + w.length ≤ width then wrapAux width ws (cur ++ " " ++ w)
    else cur :: wrapAux width ws w

/-- Modelled from the spec: "wraps formatted fragments at word boundaries,
never splitting inside a word". Whitespace (including embedded newlines) in
formatted text is normalized to single spaces by the word split. -/
def wrapText (width : Nat) (s : String) : String :=
  joinWith "\n" (wrapAux width (tokenize s) "")

/-- Merge the fragments of one paragraph into blocks: consecutive formatted
fragments are joined with a single space into one block (to be wrapped as a
unit); an unformatted fragment stands alone and is passed through verbatim.
The `Option String` accumulator is the pending formatted block. -/
def paraBlocks : List OutFragment → Option String → List (String × Bool)
  | [], none => []
  | [], some s => [(s, true)]
  | OutFragment.text t true :: rest, none => paraBlocks rest (some t)
  | OutFragment.text t true :: rest, some s => paraBlocks rest (some (s ++ " " ++ t))
  | OutFragment.text t false :: rest, none => (t, false) :: paraBlocks rest none
  | OutFragment.text t false :: rest, some s => (s, true) :: (t, false) :: paraBlocks rest none
  | OutFragment.para :: rest, acc => paraBlocks rest acc

/-- Render one paragraph at the given width: wrap the formatted blocks, pass
unformatted blocks through unchanged, join the blocks with a single space. -/
def renderPara (width : Nat) (fs : List OutFragment) : String :=
  joinWith " " ((paraBlocks fs none).map (fun b => if b.2 then wrapText width b.1 else b.1))

/-- Wrapped-mode rendering of the whole buffer: paragraphs are rendered
separately and joined by single newlines ("paragraph markers become single
newline separators"); empty paragraphs contribute nothing; trailing
whitespace of the final result is trimmed. -/
def renderWrapped (width : Nat) (frags : List OutFragment) : String :=
  trimR (joinWith "\n" (((splitParas frags []).map (renderPara width)).filter (fun s => s ≠ "")))

/-- Modelled from the spec: `drain_wrapped(width) -> single formatted
string`; "Draining in either mode empties the buffer". Returns the wrapped
string together with the emptied buffer. -/
def drainWrapped (width : Nat) (b : OutputBuffer) : String × OutputBuffer :=
  (renderWrapped width b.frags, OutputBuffer.empty)

/-! ## World state: entities, buffers, wiretap registry

Modelled from the spec (§3 Wiretap Registration, §4.5 Wiretap Registry);
`tale/base.py` and `tale/player.py` are not part of the repository
snapshot. Entities are identified by natural numbers; for the properties
proved here each entity's buffer is a flat list of delivered message
strings. -/

/-- An entity: display name, title, privilege flags. -/
structure WEntity where
  name : String
  title : String
  privileges : List String

/-- The shared world state: per-entity attributes, per-entity output
buffers, and the wiretap registry as a relation
{(observer, source), …} — "a relation {source entity → set of observer
entities}, not an ownership edge". -/
structure World where
  entities : Nat → WEntity
  buffers : Nat → List String
  taps : List (Nat × Nat)

/-- Append one message to entity `i`'s output buffer. -/
def updBuf (f : Nat → List String) (i : Nat) (msg : String) : Nat → List String :=
  fun j => if j = i then f i ++ [msg] else f j

/-- A single quote character (U+0027). -/
def sq : String := String.singleton (Char.ofNat 39)

/-- Modelled from the spec: the tagged wiretap copy
`[wiretap on (quoted source name): (message)]`. -/
def wiretapTag (srcName msg : String) : String :=
  "[wiretap on " ++ sq ++ srcName ++ sq ++ ": " ++ msg ++ "]"

/-- Fan a delivery to `src` out over the wiretap registry: every
registration whose source is `src` gets a tagged copy appended to its
observer's buffer. -/
def fanout (srcName msg : String) (src : Nat) :
    List (Nat × Nat) → (Nat → List String) → (Nat → List String)
  | [], bufs => bufs
  | (obs, s) :: rest, bufs =>
    fanout srcName msg src rest
      (if s = src then updBuf bufs obs (wiretapTag srcName msg) else bufs)

/-- Modelled from the spec (§4.5): "any call that delivers a message to
`source` … also appends a tagged copy … to every currently installed
observer's Output Buffer."  The message itself goes to the recipient's own
buffer; the fan-out happens as part of the same delivery. -/
def deliver (src : Nat) (msg : String) (w : World) : World :=
  { w with buffers := fanout (w.entities src).name msg src w.taps (updBuf w.buffers src msg) }

/-- Apply a sequence of deliveries (source, message) to the world. -/
def deliverAll (ds : List (Nat × String)) (w : World) : World :=
  ds.foldl (fun acc d => deliver d.1 d.2 acc) w

/-- Drop from the registry every registration whose observer is `obs`. -/
def removeTapsOf (obs : Nat) : List (Nat × Nat) → List (Nat × Nat)
  | [] => []
  | (o, s) :: rest =>
    if o = obs then removeTapsOf obs rest else (o, s) :: removeTapsOf obs rest

/-- Modelled from the spec (§4.5): `remove_all(observer)` — "Removing the
observer's entire tap set detaches all its taps atomically" — an explicit,
immediately-effective relation removal. -/
def clearWiretaps (obs : Nat) (w : World) : World :=
  { w with taps := removeTapsOf obs w.taps }

/-- The errors raised by privileged operations and the command decorators. -/
inductive CmdError where
  | securityViolation (msg : String)
  | taleError (msg : String)
  | typeError (msg : String)
deriving DecidableEq, Repr

/-- Modelled from the spec (§4.5): `install(observer, source)` — "Installing
a tap requires an elevated privilege on the installer (a designated
"wizard" class); attempting without it fails with a SecurityViolation."
The failing call returns only the error, so it has no effect on the world. -/
def createWiretap (obs src : Nat) (w : World) : Except CmdError World :=
  if "wizard" ∈ (w.entities obs).privileges then
    Except.ok { w with taps := (obs, src) :: w.taps }
  else
    Except.error (CmdError.securityViolation "wiretap requires wizard privilege")

/-! ## Message-template field substitution

Modelled from the spec (§4.3): "fields are written with a marker pair such
as `{title}`/`{Title}` distinguishing plain vs. capitalized substitution". -/

/-- Substitute one field name with the corresponding attribute of the
entity: `title` plain, `Title` capitalized, likewise `name`/`Name`;
an unknown field is left as written. -/
def substField (field : List Char) (e : WEntity) : List Char :=
  let f : String := String.mk field
  if f = "title" then e.title.data
  else if f = "Title" then (capitalizeStr e.title).data
  else if f = "name" then e.name.data
  else if f = "Name" then (capitalizeStr e.name).data
  else '{' :: (field ++ ['}'])

/-- Scan the template: outside a field (`acc = none`) characters are copied;
`{` opens a field; `}` closes it and substitutes. `acc` holds the reversed
field name read so far. -/
def renderAux : List Char → Option (List Char) → WEntity → List Char
  | [], none, _ => []
  | [], some acc, _ => '{' :: acc.reverse
  | c :: cs, none, e =>
    if c = '{' then renderAux cs (some []) e else c :: renderAux cs none e
  | c :: cs, some acc, e =>
    if c = '}' then substField acc.reverse e ++ renderAux cs none e
    else renderAux cs (some (c :: acc)) e

/-- Render a message template against an entity's attributes.  Rendering is
a pure read of the entity: it returns a new string and cannot change the
entity's stored attributes. -/
def render (e : WEntity) (tmpl : String) : String :=
  String.mk (renderAux tmpl.data none e)

/-- Append one message to each buffer in the list of recipients. -/
def tellOthersBufs (msg : String) : List Nat → (Nat → List String) → (Nat → List String)
  | [], bufs => bufs
  | o :: os, bufs => tellOthersBufs msg os (updBuf bufs o msg)

/-- Modelled from the spec: deliver a message template, rendered against
the acting entity's attributes, to each of the other entities present. -/
def tellOthers (actor : Nat) (others : List Nat) (tmpl : String) (w : World) : World :=
  { w with buffers := tellOthersBufs (render (w.entities actor) tmpl) others w.buffers }

/-! ## The Soul: tokenizer, target resolver, verb lookup

Modelled from the spec (§4.1–§4.3); `tale/soul.py` is not part of the
repository snapshot, only its tests are.  Entities are identified here by
their display names (the presence set is the ordered list of names present
at the actor's location). -/

/-- Targeting failures of the resolver (spec §4.2): unresolvable name,
ambiguous prefix, empty result when a target is required. -/
inductive TargetFailure where
  | notFound (token : String)
  | ambiguous (token : String) (candidates : List String)
  | noTarget
deriving DecidableEq, Repr

/-- First-seen-order deduplication, case-insensitive ("case-insensitive
name collisions dedup to a single entry"); `seen` holds the lowered names
already kept. -/
def dedupSeen : List String → List String → List String
  | [], _ => []
  | x :: xs, seen =>
    if lowerStr x ∈ seen then dedupSeen xs seen
    else x :: dedupSeen xs (lowerStr x :: seen)

/-- Present entities whose lowered name begins with the lowered token
(case-insensitive longest-prefix match, spec §4.2 step 2). -/
def matchesOf (tok : String) (present : List String) : List String :=
  present.filter (fun e => isLeadingOf (lowerStr tok).data (lowerStr e).data)

/-- Modelled from the spec (§4.2 step 4): tokens following `except`/`but`
remove matching entities from the candidate set; removing an absent entity
is a no-op. `me`/`myself` removes the actor; `and` separates. -/
def removeTargets (actor : String) (present : List String) :
    List String → List String → List String
  | [], acc => acc
  | t :: ts, acc =>
    if t = "and" then removeTargets actor present ts acc
    else if t = "me" ∨ t = "myself" then
      removeTargets actor present ts (acc.filter (fun e => e ≠ actor))
    else
      removeTargets actor present ts
        (acc.filter (fun e => e ∉ matchesOf t present))

/-- Modelled from the spec (§4.2): the target-resolution loop.  `all` seeds
every present entity except the actor in presence order; `and` is a pure
separator; `me`/`myself` inserts the actor at the position the token
occupied; `except`/`but` switches to exclusion mode; any other token is
prefix-matched against the present entities.  The final candidate list is
deduplicated preserving first-seen order. -/
def resolveLoop (actor : String) (present : List String) :
    List String → List String → Except TargetFailure (List String)
  | [], acc => Except.ok (dedupSeen acc [])
  | t :: ts, acc =>
    if t = "and" then resolveLoop actor present ts acc
    else if t = "all" then
      resolveLoop actor present ts (acc ++ present.filter (fun e => e ≠ actor))
    else if t = "me" ∨ t = "myself" then resolveLoop actor present ts (acc ++ [actor])
    else if t = "except" ∨ t = "but" then
      Except.ok (dedupSeen (removeTargets actor present ts acc) [])
    else
      match matchesOf t present with
      | [] => Except.error (TargetFailure.notFound t)
      | [e] => resolveLoop actor present ts (acc ++ [e])
      | es => Except.error (TargetFailure.ambiguous t es)

/-- Modelled from the spec (§4.2): `resolve(tokens, actor,
present_entities) -> ordered set of Entity, or failure`. -/
def resolveTargets (tokens : List String) (actor : String) (present : List String) :
    Except TargetFailure (List String) :=
  resolveLoop actor present tokens []

/-- A vocabulary entry: canonical verb name and whether it requires a
target (spec §3 Vocabulary Entry, reduced to the fields the claims need). -/
structure VocabEntry where
  verb : String
  needsTarget : Bool
deriving DecidableEq, Repr

/-- Modelled from the spec: the built-in social-verb vocabulary (the spec's
examples: "wave", "hug", "fart", "push").  The real table is much larger;
only the absence of story-specific verbs such as "befrotzificate" matters
for the claims proved here. -/
def vocabulary : List VocabEntry :=
  [⟨"wave", false⟩, ⟨"hug", true⟩, ⟨"fart", false⟩, ⟨"push", true⟩]

/-- Case-insensitive verb lookup in the built-in vocabulary. -/
def vocabLookup (verb : String) : Option VocabEntry :=
  vocabulary.find? (fun entry => entry.verb = lowerStr verb)

/-- The result of a successful parse, reduced to the fields the claims
need: the canonical verb, the ordered resolved targets (`who_order`), and
whether the verb was externally supplied rather than a built-in social
verb. -/
structure ParseResult where
  verb : String
  who_order : List String
  external : Bool
deriving DecidableEq, Repr

/-- The typed failures of `parse` (spec §4.3, §7): empty input, unknown
verb, the NonSoulVerb routing signal carrying a partial ParseResult, and
targeting failures. -/
inductive SoulFailure where
  | emptyInput
  | unknownVerb (verb : String)
  | nonSoulVerb (parsed : ParseResult)
  | targeting (f : TargetFailure)
deriving DecidableEq, Repr

/-- Modelled from the spec (§4.3): `parse(raw_text, actor, location,
external_verbs?)`.  Tokenize; the first token is the verb, the remainder
the target phrase;  an unrecognized verb raises NonSoulVerb (with a
best-effort ParseResult: verb + resolved targets from the remainder) when
it is in `external_verbs`, and UnknownVerbException otherwise;  a
recognized verb resolves its targets and fails if a required target is
missing. -/
def parse (raw actor : String) (present externals : List String) :
    Except SoulFailure ParseResult :=
  match tokenize raw with
  | [] => Except.error SoulFailure.emptyInput
  | verb :: rest =>
    match vocabLookup verb with
    | some entry =>
      match resolveTargets rest actor present with
      | Except.error f => Except.error (SoulFailure.targeting f)
      | Except.ok tgts =>
        if entry.needsTarget ∧ tgts = [] then
          Except.error (SoulFailure.targeting TargetFailure.noTarget)
        else Except.ok ⟨entry.verb, tgts, false⟩
    | none =>
      if verb ∈ externals then
        Except.error (SoulFailure.nonSoulVerb
          ⟨verb, ((resolveTargets rest actor present).toOption.getD []), true⟩)
      else Except.error (SoulFailure.unknownVerb verb)

/-! ## Command decorators

Translated from `tale/cmds/decorators.py` (`cmd`, `wizcmd`,
`cmdfunc_signature_valid`).  A Python function object is embedded as a
record of the facts `inspect` reports about it plus the attributes the
decorators read or write. -/

/-- The kind of a Python parameter (`inspect.Parameter.kind`). -/
inductive PyKind where
  | positionalOrKeyword
  | positionalOnly
  | keywordOnly
  | varPositional
  | varKeyword
deriving DecidableEq, Repr

/-- A Python type object as far as the decorator checks care:
`player.Player`, `ParseResult`, `util.Context`, `typing.Generator`, `None`,
or anything else. -/
inductive PyAnn where
  | playerT
  | parseResultT
  | contextT
  | generatorT
  | noneT
  | otherT (s : String)
deriving DecidableEq, Repr

/-- One parameter of a Python function signature.  `ann = none` stands for
`sig.empty` (no annotation); `hasDefault` for a default value being
present. -/
structure PyParam where
  pname : String
  ann : Option PyAnn
  hasDefault : Bool
  kind : PyKind
deriving DecidableEq, Repr

/-- A Python function object: whether `inspect.isfunction` holds, its
`__name__`, `__doc__` (`none` = no docstring), its signature, whether it is
a generator function, and the decorator-managed attributes
(`none` = `hasattr` is false). -/
structure PyFunc where
  isFunction : Bool
  fname : String
  doc : Option String
  params : List PyParam
  retAnn : Option PyAnn
  isGeneratorFunction : Bool
  enable_notify_action : Option Bool
  is_tale_command_func : Option Bool
  is_generator : Option Bool
deriving DecidableEq, Repr

/-- Python truthiness of `func.__doc__`: `None` and the empty string are
falsy. -/
def docTruthy : Option String → Bool
  | none => false
  | some s => s ≠ ""

/-- An annotation is acceptable when it is absent (`sig.empty`) or exactly
the expected type ("if there is type information, it should be correct"). -/
def annMatches (a : Option PyAnn) (expected : PyAnn) : Bool :=
  a = none ∨ a = some expected

/-- No default value and positional-or-keyword kind
(`sig.parameters[p].default is sig.empty and sig.parameters[p].kind is
inspect.Parameter.POSITIONAL_OR_KEYWORD`). -/
def plainParam (p : PyParam) : Bool :=
  ¬ p.hasDefault ∧ p.kind = PyKind.positionalOrKeyword

/-- Translated from `cmdfunc_signature_valid` in
`tale/cmds/decorators.py`: docstring present; a generator function must be
annotated `-> Generator` and a non-generator must have no return annotation
or `-> None`; the parameter list must be exactly `(player, parsed, ctx)`,
each unannotated or correctly annotated, with no defaults and
positional-or-keyword kind. -/
def cmdfunc_signature_valid (f : PyFunc) : Bool :=
  docTruthy f.doc &&
  (if f.isGeneratorFunction then f.retAnn = some PyAnn.generatorT
   else (f.retAnn = none ∨ f.retAnn = some PyAnn.noneT : Bool)) &&
  (match f.params with
   | [p1, p2, p3] =>
     p1.pname = "player" && p2.pname = "parsed" && p3.pname = "ctx" &&
     annMatches p1.ann PyAnn.playerT &&
     annMatches p2.ann PyAnn.parseResultT &&
     annMatches p3.ann PyAnn.contextT &&
     plainParam p1 && plainParam p2 && plainParam p3
   | _ => false)

/-- Translated from `cmd` in `tale/cmds/decorators.py`.  `fds` stands for
`util.format_docstring` (defined in a module outside the snapshot), passed
as a parameter.  A non-function raises TypeError; the `is_generator`
attribute is set; on a valid signature the same function is returned with
`is_tale_command_func` set and `enable_notify_action` defaulted to `True`;
otherwise TaleError is raised. -/
def cmd (fds : String → String) (f : PyFunc) : Except CmdError PyFunc :=
  if ¬ f.isFunction then
    Except.error (CmdError.typeError "use this only without arguments on a function")
  else
    let f1 := { f with is_generator := some f.isGeneratorFunction }
    if cmdfunc_signature_valid f1 then
      Except.ok { f1 with
        doc := f1.doc.map fds,
        is_tale_command_func := some true,
        enable_notify_action := some (f1.enable_notify_action.getD true) }
    else
      Except.error (CmdError.taleError
        ("invalid cmd function signature or missing docstring: " ++ f.fname))

/-- Translated from `executewizcommand` (the wrapper installed by `wizcmd`
in `tale/cmds/decorators.py`): the wrapped command body runs only when the
calling player holds the "wizard" privilege; otherwise SecurityViolation is
raised and the body is never invoked. -/
def executewizcommand {A : Type} (func : WEntity → ParseResult → Unit → A)
    (p : WEntity) (parsed : ParseResult) (ctx : Unit) : Except CmdError A :=
  if "wizard" ∉ p.privileges then
    Except.error (CmdError.securityViolation
      ("Wizard privilege required for verb " ++ parsed.verb))
  else Except.ok (func p parsed ctx)

/-! ## Virtual file system

Translated from `tale/vfs.py` (`validatePath`, `open_read`, `open_write`,
`load_from_storage`, `delete_storage`).  The filesystem itself is outside
the model: each operation is embedded as the computation of the path it
would open, returning `VfsError` exactly when the source raises before
touching the filesystem. -/

/-- The two `VfsError` raise sites of `validatePath`. -/
inductive VfsError where
  | backslashInPath
  | absolutePath
deriving DecidableEq, Repr

/-- `os.path.isabs` (POSIX): the path starts with a slash. -/
def pathIsAbs (s : String) : Bool :=
  match s.data with
  | [] => false
  | c :: _ => c = '/'

/-- Translated from `VirtualFileSystem.validatePath`: a backslash anywhere
in the path, or an absolute path, raises VfsError. -/
def validatePath (path : String) : Except VfsError Unit :=
  if path.data.contains '\\' then Except.error VfsError.backslashInPath
  else if pathIsAbs path then Except.error VfsError.absolutePath
  else Except.ok ()

/-- `os.path.join` for two components (POSIX): an absolute right operand
replaces the left; otherwise the parts are glued with a single slash. -/
def pathJoin (a b : String) : String :=
  if pathIsAbs b then b
  else if a = "" then b
  else if a.data.getLast? = some '/' then a ++ b
  else a ++ "/" ++ b

/-- Split a character list at every slash (`path.split("/")`;
`cur` is the reversed current component). -/
def splitSlash : List Char → List Char → List String
  | [], cur => [String.mk cur.reverse]
  | c :: rest, cur =>
    if c = '/' then String.mk cur.reverse :: splitSlash rest []
    else splitSlash rest (c :: cur)

/-- `os.path.join(*path.split("/"))`: fold the components with
`pathJoin`. -/
def joinParts (path : String) : String :=
  match splitSlash path.data [] with
  | [] => ""
  | p :: ps => ps.foldl pathJoin p

/-- Translated from `VirtualFileSystem.open_read`: validate, convert to
platform separators, resolve against the VFS root; returns the path that
would be opened. -/
def open_read (root path : String) : Except VfsError String :=
  match validatePath path with
  | Except.error e => Except.error e
  | Except.ok _ => Except.ok (pathJoin root (joinParts path))

/-- `VirtualFileSystem.get_userdata_dir`: resolve against the
platform-defined user data directory. -/
def get_userdata_dir (userdata path : String) : String :=
  pathJoin userdata path

/-- Translated from `VirtualFileSystem.open_write`: validate, convert
separators, resolve against the user data directory; returns the path that
would be opened. -/
def open_write (userdata path : String) : Except VfsError String :=
  match validatePath path with
  | Except.error e => Except.error e
  | Except.ok _ => Except.ok (get_userdata_dir userdata (joinParts path))

/-- Translated from `VirtualFileSystem.load_from_storage`: validates and
resolves exactly like `open_write`. -/
def load_from_storage (userdata path : String) : Except VfsError String :=
  match validatePath path with
  | Except.error e => Except.error e
  | Except.ok _ => Except.ok (get_userdata_dir userdata (joinParts path))

/-- Translated from `VirtualFileSystem.delete_storage`: validates, then
resolves the raw path against the user data directory (this operation does
not convert separators). -/
def delete_storage (userdata path : String) : Except VfsError String :=
  match validatePath path with
  | Except.error e => Except.error e
  | Except.ok _ => Except.ok (get_userdata_dir userdata path)

/-- The error a path failing validation produces: `validatePath` reports
the backslash violation first, absoluteness second. -/
def vErr (path : String) : VfsError :=
  if path.data.contains '\\' then VfsError.backslashInPath else VfsError.absolutePath

/-- `s` starts with the prefix string `p`. -/
def strStartsWith (s p : String) : Bool :=
  isLeadingOf p.data s.data

/-- Pointwise annotation check of a parameter-annotation list against the
expected types, used to phrase the claim's condition on `cmd`. -/
def annsOk : List (Option PyAnn) → List PyAnn → Bool
  | [], [] => true
  | a :: as, t :: ts => annMatches a t && annsOk as ts
  | _, _ => false

/-- The claim's acceptance condition for `cmd`, written from the claim's
words: the function has a docstring, its parameter list is exactly
`(player, parsed, ctx)` with no defaults and positional-or-keyword kind,
and any annotations present (parameter or return) match the expected
types. -/
def cmdClaimCond (f : PyFunc) : Bool :=
  docTruthy f.doc &&
  f.params.map PyParam.pname = ["player", "parsed", "ctx"] &&
  f.params.all (fun p => plainParam p) &&
  annsOk (f.params.map PyParam.ann) [PyAnn.playerT, PyAnn.parseResultT, PyAnn.contextT] &&
  (if f.isGeneratorFunction then f.retAnn = some PyAnn.generatorT
   else annMatches f.retAnn PyAnn.noneT)

/-! ## Concrete fixtures used by the witness theorems -/

/-- The test scenario's world: fritz (entity 0), julie (entity 1) and the
attic (entity 2); fritz taps julie and the attic. -/
def testWorld : World :=
  { entities := fun i =>
      if i = 0 then ⟨"fritz", "Fritz the great", ["wizard"]⟩
      else if i = 1 then ⟨"julie", "julie", []⟩
      else ⟨"Attic", "Attic", []⟩
    buffers := fun _ => []
    taps := [(0, 1), (0, 2)] }

/-- A world whose entity 0 is an actor without any privileges and whose
entity 3 has the title used by the template round-trip test. -/
def plainWorld : World :=
  { entities := fun i =>
      if i = 0 then ⟨"fritz", "Fritz", []⟩
      else if i = 3 then ⟨"merlin", "the great", []⟩
      else ⟨"julie", "julie", []⟩
    buffers := fun _ => []
    taps := [] }

/-- A command function with the exact valid signature
`def func(player, parsed, ctx)` plus a docstring. -/
def validCmdFunc : PyFunc :=
  { isFunction := true
    fname := "smurf"
    doc := some "does something"
    params := [⟨"player", none, false, PyKind.positionalOrKeyword⟩,
               ⟨"parsed", none, false, PyKind.positionalOrKeyword⟩,
               ⟨"ctx", none, false, PyKind.positionalOrKeyword⟩]
    retAnn := none
    isGeneratorFunction := false
    enable_notify_action := none
    is_tale_command_func := none
    is_generator := none }

/-- The same function without a docstring (an invalid command function). -/
def noDocCmdFunc : PyFunc :=
  { validCmdFunc with doc := none }

/-! ## Lemmas about the Output Buffer -/

lemma endsWithPara_concat (l : List OutFragment) :
    endsWithPara (l ++ [OutFragment.para]) = true := by
  simp [endsWithPara, List.getLast?_concat]

lemma appendPara_idem (b : OutputBuffer) : appendPara (appendPara b) = appendPara b := by
  by_cases h1 : b.frags = []
  · simp [appendPara, h1]
  · by_cases h2 : endsWithPara b.frags
    · simp [appendPara, h1, h2]
    · simp [appendPara, h1, h2, endsWithPara_concat]

lemma tell_empty (f e : Bool) (b : OutputBuffer) : tell "" f e b = appendPara b := by
  simp [tell]

/-- C5: Draining the Output Buffer in either mode (raw `get_output_lines` or
wrapped `get_wrapped_output_lines`) leaves the buffer empty immediately
afterwards; a drain in the other mode right after returns nothing, and a
second drain in either mode returns exactly what a fresh buffer would
return for the `tell` calls made after the first drain — the two read modes
are views of the same pending data, never independent queues. -/
theorem drain_empties_buffer (b : OutputBuffer) (width : Nat) (ops : List TellOp) :
    (drainRaw b).2 = OutputBuffer.empty ∧
    (drainWrapped width b).2 = OutputBuffer.empty ∧
    (drainRaw (drainWrapped width b).2).1 = [] ∧
    (drainWrapped width (drainRaw b).2).1 = "" ∧
    (drainRaw (applyTells ops (drainRaw b).2)).1
      = (drainRaw (applyTells ops OutputBuffer.empty)).1 ∧
    (drainWrapped width (applyTells ops (drainWrapped width b).2)).1
      = (drainWrapped width (applyTells ops OutputBuffer.empty)).1 ∧
    (drainWrapped width (applyTells ops (drainRaw b).2)).1
      = (drainWrapped width (applyTells ops OutputBuffer.empty)).1 ∧
    (drainRaw (applyTells ops (drainWrapped width b).2)).1
      = (drainRaw (applyTells ops OutputBuffer.empty)).1 :=
  ⟨rfl, rfl, rfl, rfl, rfl, rfl, rfl, rfl⟩

/-- C6: Appending the empty string twice to a fresh Output Buffer and draining
raw yields the empty sequence; a second consecutive empty-string `tell` (with
any flags) is a no-op, so a run of consecutive empty-string tells produces at
most one paragraph-break marker; and an empty-string tell on an
otherwise-empty buffer contributes nothing. -/
theorem empty_tell_collapse :
    (drainRaw (tell "" true false (tell "" true false OutputBuffer.empty))).1 = [] ∧
    (∀ (b : OutputBuffer) (f e f2 e2 : Bool),
      tell "" f e (tell "" f2 e2 b) = tell "" f2 e2 b) ∧
    (∀ f e : Bool, tell "" f e OutputBuffer.empty = OutputBuffer.empty) := by
  refine ⟨rfl, ?_, ?_⟩
  · intro b f e f2 e2
    simp only [tell_empty]
    exact appendPara_idem b
  · intro f e
    rfl

/-! ## Lemmas about wiretap delivery -/

/-- The tagged copies that entity `i`'s buffer receives, in registry order,
when a message is delivered to source `sc` under the given registry. -/
def tagsFor (n m : String) (sc i : Nat) : List (Nat × Nat) → List String
  | [] => []
  | (o, s) :: rest =>
    if s = sc ∧ o = i then wiretapTag n m :: tagsFor n m sc i rest
    else tagsFor n m sc i rest

lemma fanout_at (n m : String) (sc : Nat) (taps : List (Nat × Nat))
    (bufs : Nat → List String) (i : Nat) :
    fanout n m sc taps bufs i = bufs i ++ tagsFor n m sc i taps := by
  induction taps generalizing bufs with
  | nil => simp [fanout, tagsFor]
  | cons hd rest ih =>
    obtain ⟨o, s⟩ := hd
    by_cases hs : s = sc
    · by_cases ho : o = i
      · subst hs; subst ho
        simp [fanout, ih, tagsFor, updBuf]
      · subst hs
        have hio : ¬ i = o := fun h => ho h.symm
        simp [fanout, ih, tagsFor, updBuf, ho, hio]
    · simp [fanout, ih, tagsFor, hs]

lemma deliver_buffers_at (src : Nat) (msg : String) (w : World) (i : Nat) :
    (deliver src msg w).buffers i
      = (if i = src then w.buffers src ++ [msg] else w.buffers i)
        ++ tagsFor (w.entities src).name msg src i w.taps := by
  by_cases h : i = src <;> simp [deliver, fanout_at, updBuf, h]

lemma removeTapsOf_no_obs (obs : Nat) (taps : List (Nat × Nat)) :
    ∀ p ∈ removeTapsOf obs taps, p.1 ≠ obs := by
  induction taps with
  | nil => simp [removeTapsOf]
  | cons hd rest ih =>
    obtain ⟨o, s⟩ := hd
    by_cases ho : o = obs
    · simpa [removeTapsOf, ho] using ih
    · intro p hp
      simp only [removeTapsOf, if_neg ho, List.mem_cons] at hp
      rcases hp with rfl | hp
      · exact ho
      · exact ih p hp

lemma tagsFor_of_absent (n m : String) (sc i : Nat) (taps : List (Nat × Nat))
    (h : ∀ p ∈ taps, p.1 ≠ i) : tagsFor n m sc i taps = [] := by
  induction taps with
  | nil => simp [tagsFor]
  | cons hd rest ih =>
    obtain ⟨o, s⟩ := hd
    have ho : o ≠ i := h (o, s) (by simp)
    have hcond : ¬ (s = sc ∧ o = i) := by
      rintro ⟨-, rfl⟩
      exact ho rfl
    rw [tagsFor, if_neg hcond]
    exact ih (fun p hp => h p (List.mem_cons_of_mem _ hp))

lemma tagsFor_removeTapsOf_other (n m : String) (sc obs i : Nat) (hi : i ≠ obs)
    (taps : List (Nat × Nat)) :
    tagsFor n m sc i (removeTapsOf obs taps) = tagsFor n m sc i taps := by
  induction taps with
  | nil => simp [removeTapsOf]
  | cons hd rest ih =>
    obtain ⟨o, s⟩ := hd
    by_cases ho : o = obs
    · have hcond : ¬ (s = sc ∧ o = i) := by
        rintro ⟨-, rfl⟩
        exact hi ho
      rw [removeTapsOf, if_pos ho, ih, tagsFor, if_neg hcond]
    · rw [removeTapsOf, if_neg ho, tagsFor, tagsFor, ih]

lemma deliverAll_buffers_obs (obs : Nat) (ds : List (Nat × String)) :
    ∀ w : World, (∀ p ∈ w.taps, p.1 ≠ obs) →
      (deliverAll ds w).buffers obs
        = w.buffers obs ++ (ds.filter (fun d => d.1 = obs)).map (fun d => d.2) := by
  induction ds with
  | nil => intro w _; simp [deliverAll]
  | cons d rest ih =>
    intro w hw
    obtain ⟨src, msg⟩ := d
    have htags : tagsFor (w.entities src).name msg src obs w.taps = [] :=
      tagsFor_of_absent _ _ _ _ _ hw
    have hstep : (deliverAll ((src, msg) :: rest) w)
        = deliverAll rest (deliver src msg w) := by
      simp [deliverAll]
    rw [hstep, ih (deliver src msg w) (by simpa [deliver] using hw)]
    rw [deliver_buffers_at, htags]
    by_cases h : src = obs
    · subst h
      simp [List.filter_cons]
    · have h2 : ¬ obs = src := fun hh => h hh.symm
      simp [List.filter_cons, h, h2]

/-- C1: After `clearWiretaps` removes an observer's entire tap set, the
removal is complete the moment the call returns (the observer's buffer is
untouched by the removal itself, and the registry holds no registration for
that observer), no sequence of subsequent deliveries ever appends a tagged
wiretap copy to that observer's buffer — the observer receives exactly the
messages addressed to it directly — and delivery to any other recipient is
completely unaffected by the removal. -/
theorem wiretap_clear_immediate (w : World) (obs : Nat) (ds : List (Nat × String)) :
    (clearWiretaps obs w).buffers obs = w.buffers obs ∧
    (∀ p ∈ (clearWiretaps obs w).taps, p.1 ≠ obs) ∧
    (deliverAll ds (clearWiretaps obs w)).buffers obs
      = w.buffers obs ++ (ds.filter (fun d => d.1 = obs)).map (fun d => d.2) ∧
    (∀ src msg, src ≠ obs →
      (deliver src msg (clearWiretaps obs w)).buffers src
        = (deliver src msg w).buffers src) := by
  have hno : ∀ p ∈ (clearWiretaps obs w).taps, p.1 ≠ obs :=
    removeTapsOf_no_obs obs w.taps
  refine ⟨rfl, hno, ?_, ?_⟩
  · exact deliverAll_buffers_obs obs ds (clearWiretaps obs w) hno
  · intro src msg hsrc
    rw [deliver_buffers_at, deliver_buffers_at]
    simp only [clearWiretaps]
    rw [tagsFor_removeTapsOf_other _ _ _ _ _ hsrc]

/-- Witness for C1: in the test world, after fritz (entity 0) clears his
wiretaps, a delivery to julie (entity 1) leaves fritz's buffer empty and
reaches julie exactly as it would have without the removal. -/
theorem wiretap_clear_immediate_witness :
    (deliverAll [(1, "message for julie")] (clearWiretaps 0 testWorld)).buffers 0 = [] ∧
    (deliver 1 "message for julie" (clearWiretaps 0 testWorld)).buffers 1
      = (deliver 1 "message for julie" testWorld).buffers 1 := by
  constructor
  · exact ((wiretap_clear_immediate testWorld 0 [(1, "message for julie")]).2.2.1).trans
      (by decide)
  · exact (wiretap_clear_immediate testWorld 0 [(1, "message for julie")]).2.2.2
      1 "message for julie" (by decide)

/-- C2: Invoking a `@wizcmd`-decorated command through its
`executewizcommand` wrapper, or installing a wiretap with `createWiretap`,
raises SecurityViolation whenever the acting player's privilege set lacks
`"wizard"` — the wrapped command body is never invoked and the world is
unchanged (only the error is returned) — while with the `"wizard"`
privilege present the same call succeeds: the wrapped body runs, and the
wiretap registration is added. -/
theorem wizard_privilege_required {A : Type}
    (func : WEntity → ParseResult → Unit → A) (p : WEntity)
    (parsed : ParseResult) (ctx : Unit) (w : World) (obs src : Nat) :
    ("wizard" ∉ p.privileges →
      executewizcommand func p parsed ctx
        = Except.error (CmdError.securityViolation
            ("Wizard privilege required for verb " ++ parsed.verb))) ∧
    ("wizard" ∈ p.privileges →
      executewizcommand func p parsed ctx = Except.ok (func p parsed ctx)) ∧
    ("wizard" ∉ (w.entities obs).privileges →
      createWiretap obs src w
        = Except.error (CmdError.securityViolation
            "wiretap requires wizard privilege")) ∧
    ("wizard" ∈ (w.entities obs).privileges →
      createWiretap obs src w
        = Except.ok { w with taps := (obs, src) :: w.taps }) := by
  refine ⟨?_, ?_, ?_, ?_⟩ <;> intro h <;> simp [executewizcommand, createWiretap, h]

/-- Witness for C2: in the test world, fritz (entity 0, a wizard) may
install a wiretap on julie (entity 1) while julie (no privileges) may not
execute a wizard command nor install a wiretap on fritz. -/
theorem wizard_privilege_required_witness :
    executewizcommand (fun _ _ _ => (0 : Nat)) (testWorld.entities 1)
        ⟨"clone", [], false⟩ ()
      = Except.error (CmdError.securityViolation
          "Wizard privilege required for verb clone") ∧
    createWiretap 1 0 testWorld
      = Except.error (CmdError.securityViolation
          "wiretap requires wizard privilege") ∧
    createWiretap 0 1 testWorld
      = Except.ok { testWorld with taps := (0, 1) :: testWorld.taps } := by
  refine ⟨?_, ?_, ?_⟩
  · exact (wizard_privilege_required (fun _ _ _ => (0 : Nat)) (testWorld.entities 1)
      ⟨"clone", [], false⟩ () testWorld 1 0).1 (by decide)
  · exact (wizard_privilege_required (fun _ _ _ => (0 : Nat)) (testWorld.entities 1)
      ⟨"clone", [], false⟩ () testWorld 1 0).2.2.1 (by decide)
  · exact (wizard_privilege_required (fun _ _ _ => (0 : Nat)) (testWorld.entities 0)
      ⟨"clone", [], false⟩ () testWorld 0 1).2.2.2 (by decide)

/-! ## Lemmas about the target resolver -/

lemma dedupSeen_eq_self (l : List String) :
    ∀ seen : List String,
      l.Pairwise (fun a b => lowerStr a ≠ lowerStr b) →
      (∀ x ∈ l, lowerStr x ∉ seen) →
      dedupSeen l seen = l := by
  induction l with
  | nil => intro seen _ _; rfl
  | cons x xs ih =>
    intro seen hp hs
    rw [dedupSeen, if_neg (hs x (by simp))]
    rcases List.pairwise_cons.mp hp with ⟨hx, hxs⟩
    congr 1
    refine ih (lowerStr x :: seen) hxs ?_
    intro y hy
    simp only [List.mem_cons]
    rintro (h | h)
    · exact hx y hy h.symm
    · exact hs y (List.mem_cons_of_mem _ hy) h

/-- C4: Resolving the target token `all` yields every entity present at the
location except the actor, in the location's stable presence order (the
hypothesis says the present entities have pairwise distinct names up to
case, so that deduplication keeps them all). -/
theorem resolve_all_excludes_actor (actor : String) (present : List String)
    (hp : present.Pairwise (fun a b => lowerStr a ≠ lowerStr b)) :
    resolveTargets ["all"] actor present
      = Except.ok (present.filter (fun e => e ≠ actor)) := by
  simp [resolveTargets, resolveLoop]
  exact dedupSeen_eq_self _ []
    (hp.sublist (List.filter_sublist present)) (by simp)

/-- Witness for C4: with presence {A, B, C} and actor A, `all` resolves to
[B, C] in presence order. -/
theorem resolve_all_excludes_actor_witness :
    resolveTargets ["all"] "A" ["A", "B", "C"] = Except.ok ["B", "C"] :=
  (resolve_all_excludes_actor "A" ["A", "B", "C"] (by decide)).trans (by decide)

/-- C3: For an actor in a location with one other entity, parsing
`befrotzificate all and me` with no external verbs raises
UnknownVerbException, while the same parse with external verbs
{befrotzificate} raises NonSoulVerb carrying a partial ParseResult whose
verb is `befrotzificate` and whose ordered targets are [other, actor]. -/
theorem external_verb_routing (actor other : String)
    (h : lowerStr actor ≠ lowerStr other) :
    parse "befrotzificate all and me" actor [other, actor] []
      = Except.error (SoulFailure.unknownVerb "befrotzificate") ∧
    parse "befrotzificate all and me" actor [other, actor] ["befrotzificate"]
      = Except.error (SoulFailure.nonSoulVerb
          ⟨"befrotzificate", [other, actor], true⟩) := by
  have hne : other ≠ actor := fun he => h (congrArg lowerStr he).symm
  have htok : tokenize "befrotzificate all and me"
      = ["befrotzificate", "all", "and", "me"] := by decide
  have hvocab : vocabLookup "befrotzificate" = none := by decide
  have hres : resolveTargets ["all", "and", "me"] actor [other, actor]
      = Except.ok [other, actor] := by
    simp [resolveTargets, resolveLoop, List.filter_cons, hne, dedupSeen, h]
  constructor
  · simp [parse, htok, hvocab]
  · simp [parse, htok, hvocab, hres, Except.toOption]

/-- Witness for C3: the test scenario, actor fritz with julie present. -/
theorem external_verb_routing_witness :
    parse "befrotzificate all and me" "fritz" ["julie", "fritz"] []
      = Except.error (SoulFailure.unknownVerb "befrotzificate") ∧
    parse "befrotzificate all and me" "fritz" ["julie", "fritz"] ["befrotzificate"]
      = Except.error (SoulFailure.nonSoulVerb
          ⟨"befrotzificate", ["julie", "fritz"], true⟩) :=
  external_verb_routing "fritz" "julie" (by decide)

/-- C7: For 30 repetitions of `"word "` drained in wrapped mode at width 80:
appended with `format=true` the wrapped output differs from the unwrapped
joined string (wrapping occurs), but appended with `format=false` it is
identical to the unwrapped string (the fragment passes through the
formatter unchanged). -/
theorem wrap_format_flag :
    (drainWrapped 80 (tell (repeatStr 30 "word ") true false OutputBuffer.empty)).1
      ≠ trimR (repeatStr 30 "word ") ∧
    (drainWrapped 80 (tell (repeatStr 30 "word ") false false OutputBuffer.empty)).1
      = trimR (repeatStr 30 "word ") := by
  constructor
  · decide
  · decide

/-! ## Template substitution (C8) -/

lemma render_title_template (e : WEntity) (h : e.title = "the great") :
    render e "{title} and {Title}" = "the great and The great" := by
  obtain ⟨n, t, p⟩ := e
  simp only [WEntity.title] at h
  subst h
  rfl

/-- C8: Rendering a message template containing the plain-title field
`{title}` and the capitalized-title field `{Title}` for an entity whose
title is `the great` substitutes `the great` for the plain field and
`The great` for the capitalized field, and the entity's stored attributes
(in particular its title) are unchanged by the rendering delivery. -/
theorem title_substitution (w : World) (actor o : Nat)
    (h : (w.entities actor).title = "the great") :
    (tellOthers actor [o] "{title} and {Title}" w).buffers o
      = w.buffers o ++ ["the great and The great"] ∧
    (tellOthers actor [o] "{title} and {Title}" w).entities = w.entities := by
  constructor
  · simp [tellOthers, tellOthersBufs, updBuf, render_title_template _ h]
  · rfl

/-- Witness for C8: in `plainWorld`, entity 3's title is `the great`; a
`tellOthers` delivery to entity 1 appends the substituted message. -/
theorem title_substitution_witness :
    (tellOthers 3 [1] "{title} and {Title}" plainWorld).buffers 1
      = ["the great and The great"] :=
  ((title_substitution plainWorld 3 1 (by decide)).1).trans (by decide)

/-! ## Command decorator (C9) -/

lemma cmd_valid_iff (f : PyFunc) :
    cmdfunc_signature_valid f = true ↔ cmdClaimCond f = true := by
  rcases f with ⟨isF, nm, doc, params, ret, isGen, ena, itc, ig⟩
  rcases params with _ | ⟨p1, params⟩
  · simp [cmdfunc_signature_valid, cmdClaimCond, annsOk]
  · rcases params with _ | ⟨p2, params⟩
    · simp [cmdfunc_signature_valid, cmdClaimCond, annsOk]
    · rcases params with _ | ⟨p3, params⟩
      · simp [cmdfunc_signature_valid, cmdClaimCond, annsOk]
      · rcases params with _ | ⟨p4, params⟩
        · simp [cmdfunc_signature_valid, cmdClaimCond, annsOk, annMatches,
            plainParam, docTruthy]
          tauto
        · simp [cmdfunc_signature_valid, cmdClaimCond, annsOk]

/-- C9: `cmd` accepts exactly the functions satisfying the claimed
condition (docstring present; parameters exactly `(player, parsed, ctx)`
with no defaults, positional-or-keyword kind, annotations — including the
return annotation — matching the expected types): on acceptance it returns
the same function with `is_tale_command_func` set and
`enable_notify_action` defaulting to `True`; otherwise it raises TaleError,
or TypeError when the argument is not a function; it never returns a
function that failed the signature check. -/
theorem cmd_decorator_gate (fds : String → String) (f : PyFunc) :
    (f.isFunction = false →
      cmd fds f = Except.error
        (CmdError.typeError "use this only without arguments on a function")) ∧
    (f.isFunction = true → cmdClaimCond f = true →
      cmd fds f = Except.ok { f with
        doc := f.doc.map fds,
        is_generator := some f.isGeneratorFunction,
        is_tale_command_func := some true,
        enable_notify_action := some (f.enable_notify_action.getD true) }) ∧
    (f.isFunction = true → cmdClaimCond f = false →
      cmd fds f = Except.error (CmdError.taleError
        ("invalid cmd function signature or missing docstring: " ++ f.fname))) ∧
    (∀ g, cmd fds f = Except.ok g → cmdClaimCond f = true) := by
  have hval : ∀ (b : Bool) (x : Option Bool),
      cmdfunc_signature_valid { f with isFunction := b, is_generator := x }
        = cmdfunc_signature_valid f := fun _ _ => rfl
  refine ⟨?_, ?_, ?_, ?_⟩
  · intro h
    simp [cmd, h]
  · intro h1 h2
    have hv : cmdfunc_signature_valid f = true := (cmd_valid_iff f).mpr h2
    simp [cmd, h1, hval, hv]
  · intro h1 h2
    have hv : cmdfunc_signature_valid f = false := by
      rcases hb : cmdfunc_signature_valid f with _ | _
      · rfl
      · rw [(cmd_valid_iff f).mp hb] at h2
        exact absurd h2 (by simp)
    simp [cmd, h1, hval, hv]
  · intro g hg
    rcases hb : f.isFunction with _ | _
    · simp [cmd, hb] at hg
    · rcases hc : cmdClaimCond f with _ | _
      · have hv : cmdfunc_signature_valid f = false := by
          rcases hb2 : cmdfunc_signature_valid f with _ | _
          · rfl
          · rw [(cmd_valid_iff f).mp hb2] at hc
            exact absurd hc (by simp)
        simp [cmd, hb, hval, hv] at hg
      · rfl

/-- Witness for C9: the concrete valid command function is accepted with
the flag attributes set, and the same function without a docstring is
rejected with TaleError. -/
theorem cmd_decorator_gate_witness :
    cmd id validCmdFunc = Except.ok { validCmdFunc with
      doc := validCmdFunc.doc.map id,
      is_generator := some validCmdFunc.isGeneratorFunction,
      is_tale_command_func := some true,
      enable_notify_action := some (validCmdFunc.enable_notify_action.getD true) } ∧
    cmd id noDocCmdFunc = Except.error (CmdError.taleError
      ("invalid cmd function signature or missing docstring: " ++ noDocCmdFunc.fname)) := by
  constructor
  · exact (cmd_decorator_gate id validCmdFunc).2.1 rfl (by decide)
  · exact (cmd_decorator_gate id noDocCmdFunc).2.2.1 rfl (by decide)

/-! ## Virtual file system path confinement (C10) -/

lemma isLeadingOf_append (a rest : List Char) : isLeadingOf a (a ++ rest) = true := by
  induction a with
  | nil => rfl
  | cons c cs ih => simp [isLeadingOf, ih]

lemma data_append (a b : String) : (a ++ b).data = a.data ++ b.data := rfl

lemma pathJoin_leading (a b : String) (h : pathIsAbs b = false) :
    strStartsWith (pathJoin a b) a = true := by
  by_cases ha : a = ""
  · subst ha
    simp [pathJoin, h, strStartsWith, isLeadingOf]
  · by_cases hl : a.data.getLast? = some '/'
    · simp [pathJoin, h, ha, hl, strStartsWith, data_append, isLeadingOf_append]
    · simp [pathJoin, h, ha, hl, strStartsWith, data_append, List.append_assoc,
        isLeadingOf_append]

lemma no_slash_not_abs (s : String) (h : '/' ∉ s.data) : pathIsAbs s = false := by
  rcases hs : s.data with _ | ⟨c, cs⟩
  · simp [pathIsAbs, hs]
  · have hc : ¬ c = '/' := by
      intro hcc
      rw [hs, hcc] at h
      exact h (by simp)
    simp [pathIsAbs, hs, hc]

lemma splitSlash_no_slash (cs : List Char) :
    ∀ cur : List Char, '/' ∉ cur →
      ∀ p ∈ splitSlash cs cur, '/' ∉ p.data := by
  induction cs with
  | nil =>
    intro cur hcur p hp
    simp only [splitSlash, List.mem_singleton] at hp
    subst hp
    simpa using hcur
  | cons c rest ih =>
    intro cur hcur p hp
    by_cases hc : c = '/'
    · rw [splitSlash, if_pos hc] at hp
      rcases List.mem_cons.mp hp with rfl | hp
      · simpa using hcur
      · exact ih [] (by simp) p hp
    · rw [splitSlash, if_neg hc] at hp
      refine ih (c :: cur) ?_ p hp
      intro hmem
      rcases List.mem_cons.mp hmem with h1 | h1
      · exact hc h1.symm
      · exact hcur h1

lemma pathIsAbs_cons (s : String) (c : Char) (cs : List Char)
    (hs : s.data = c :: cs) : pathIsAbs s = (c = '/' : Bool) := by
  obtain ⟨l⟩ := s
  simp only at hs
  subst hs
  rfl

lemma pathIsAbs_pathJoin (a b : String) (ha : pathIsAbs a = false)
    (hb : pathIsAbs b = false) : pathIsAbs (pathJoin a b) = false := by
  by_cases h0 : a = ""
  · simp [pathJoin, h0, hb]
  · have hdata : a.data ≠ [] := by
      intro hd
      apply h0
      obtain ⟨l⟩ := a
      simp only at hd
      subst hd
      rfl
    rcases hda : a.data with _ | ⟨c, cs⟩
    · exact absurd hda hdata
    · have hc : ¬ (c = '/') := by
        have h2 := (pathIsAbs_cons a c cs hda).symm.trans ha
        simpa using h2
      by_cases hl : a.data.getLast? = some '/'
      · have hd2 : (a ++ b).data = c :: (cs ++ b.data) := by
          rw [data_append, hda]
          rfl
        simp [pathJoin, hb, h0, hl, pathIsAbs_cons (a ++ b) c _ hd2, hc]
      · have hd2 : (a ++ "/" ++ b).data = c :: (cs ++ '/' :: b.data) := by
          rw [data_append, data_append, hda]
          simp
        simp [pathJoin, hb, h0, hl, pathIsAbs_cons (a ++ "/" ++ b) c _ hd2, hc]

lemma foldl_pathJoin_not_abs (ps : List String) :
    ∀ a : String, pathIsAbs a = false →
      (∀ p ∈ ps, pathIsAbs p = false) →
      pathIsAbs (ps.foldl pathJoin a) = false := by
  induction ps with
  | nil => intro a ha _; simpa using ha
  | cons p ps ih =>
    intro a ha hps
    rw [List.foldl_cons]
    exact ih (pathJoin a p)
      (pathIsAbs_pathJoin a p ha (hps p (by simp)))
      (fun q hq => hps q (List.mem_cons_of_mem _ hq))

lemma joinParts_not_abs (path : String) : pathIsAbs (joinParts path) = false := by
  rw [joinParts]
  rcases hs : splitSlash path.data [] with _ | ⟨p, ps⟩
  · rfl
  · have hall : ∀ q ∈ splitSlash path.data [], '/' ∉ q.data :=
      splitSlash_no_slash path.data [] (by simp)
    refine foldl_pathJoin_not_abs ps p ?_ ?_
    · exact no_slash_not_abs p (hall p (by rw [hs]; simp))
    · intro q hq
      exact no_slash_not_abs q (hall q (by rw [hs]; exact List.mem_cons_of_mem _ hq))

/-- C10: every path containing a backslash or that is absolute makes
`open_read`, `open_write`, `load_from_storage` and `delete_storage` return
a VfsError (the operation never reaches the filesystem), and every path
these operations do open starts with the VFS root (for `open_read`) or the
user-data directory (for the storage operations) — never an absolute
caller-supplied path. -/
theorem vfs_path_confinement (root userdata path : String) :
    (path.data.contains '\\' = true ∨ pathIsAbs path = true →
      open_read root path = Except.error (vErr path) ∧
      open_write userdata path = Except.error (vErr path) ∧
      load_from_storage userdata path = Except.error (vErr path) ∧
      delete_storage userdata path = Except.error (vErr path)) ∧
    (∀ res, open_read root path = Except.ok res → strStartsWith res root = true) ∧
    (∀ res, open_write userdata path = Except.ok res →
      strStartsWith res userdata = true) ∧
    (∀ res, load_from_storage userdata path = Except.ok res →
      strStartsWith res userdata = true) ∧
    (∀ res, delete_storage userdata path = Except.ok res →
      strStartsWith res userdata = true) := by
  by_cases hbs : '\\' ∈ path.data
  · have hv : validatePath path = Except.error (vErr path) := by
      simp [validatePath, vErr, hbs]
    refine ⟨fun _ => ?_, ?_, ?_, ?_, ?_⟩
    · exact ⟨by simp [open_read, hv], by simp [open_write, hv],
        by simp [load_from_storage, hv], by simp [delete_storage, hv]⟩
    all_goals intro res hres
    all_goals simp [open_read, open_write, load_from_storage, delete_storage, hv] at hres
  · by_cases habs : pathIsAbs path = true
    · have hv : validatePath path = Except.error (vErr path) := by
        simp [validatePath, vErr, hbs, habs]
      refine ⟨fun _ => ?_, ?_, ?_, ?_, ?_⟩
      · exact ⟨by simp [open_read, hv], by simp [open_write, hv],
          by simp [load_from_storage, hv], by simp [delete_storage, hv]⟩
      all_goals intro res hres
      all_goals simp [open_read, open_write, load_from_storage, delete_storage, hv] at hres
    · have hv : validatePath path = Except.ok () := by
        simp [validatePath, hbs, habs]
      have habs2 : pathIsAbs path = false := by
        rcases hb : pathIsAbs path with _ | _
        · rfl
        · exact absurd hb habs
      refine ⟨fun hcontra => ?_, ?_, ?_, ?_, ?_⟩
      · rcases hcontra with h | h
        · exact absurd (by simpa using h) hbs
        · exact absurd h habs
      · intro res hres
        simp only [open_read, hv, Except.ok.injEq] at hres
        subst hres
        exact pathJoin_leading root (joinParts path) (joinParts_not_abs path)
      · intro res hres
        simp only [open_write, hv, Except.ok.injEq] at hres
        subst hres
        exact pathJoin_leading userdata (joinParts path) (joinParts_not_abs path)
      · intro res hres
        simp only [load_from_storage, hv, Except.ok.injEq] at hres
        subst hres
        exact pathJoin_leading userdata (joinParts path) (joinParts_not_abs path)
      · intro res hres
        simp only [delete_storage, hv, Except.ok.injEq] at hres
        subst hres
        exact pathJoin_leading userdata path habs2

/-- Witness for C10: a backslash path and an absolute path are rejected by
`open_read`, while an accepted relative path resolves under the root. -/
theorem vfs_path_confinement_witness :
    open_read "/app/tale" "a\\b" = Except.error VfsError.backslashInPath ∧
    open_read "/app/tale" "/etc/passwd" = Except.error VfsError.absolutePath ∧
    strStartsWith "/app/tale/messages/en.txt" "/app/tale" = true := by
  refine ⟨?_, ?_, ?_⟩
  · exact (((vfs_path_confinement "/app/tale" "u" "a\\b").1
      (Or.inl (by decide))).1).trans (by decide)
  · exact (((vfs_path_confinement "/app/tale" "u" "/etc/passwd").1
      (Or.inr (by decide))).1).trans (by decide)
  · exact (vfs_path_confinement "/app/tale" "u" "messages/en.txt").2.1
      "/app/tale/messages/en.txt" (by decide)

end Tale
